import Mathlib

/-!
Verification of the MetaExodus replication engine against its
natural-language specification.

The JavaScript services are shallowly embedded: each service method becomes a
pure Lean function; the database / HTTP side effects are abstracted as
explicit oracle parameters (a `connection.query` outcome becomes an
`Except String Nat` value, the Metabase extraction becomes an
`ExtractResult` input, mutated statistics become returned deltas).
The embedded definitions mirror the control flow of the source files
(`src/services/dataTransformation.js`, `src/services/data.js`,
`src/services/syncOrchestrator.js`, `src/utils/env.js`).
-/

namespace MetaExodus

/-! ### JavaScript string primitives

Small executable models of the JavaScript builtins the services use:
`String.prototype.includes`, `String.prototype.toLowerCase`. -/

/-- Helper for `strContains`: does `sub` occur as a contiguous run inside the
character list? -/
def infixCheck (sub : List Char) : List Char → Bool
  | [] => sub.isEmpty
  | c :: rest => sub.isPrefixOf (c :: rest) || infixCheck sub rest

/-- Model of JavaScript `s.includes(sub)`: `sub` occurs as a contiguous
substring of `s`. -/
def strContains (s sub : String) : Bool :=
  infixCheck sub.toList s.toList

/-- ASCII lower-casing of one character. -/
def lowerChar (c : Char) : Char :=
  if 65 ≤ c.toNat ∧ c.toNat ≤ 90 then Char.ofNat (c.toNat + 32) else c

/-- Model of JavaScript `s.toLowerCase()` (ASCII-adequate; every string the
services compare is ASCII). -/
def jsToLower (s : String) : String :=
  String.mk (s.toList.map lowerChar)

/-! ### Transformer (`src/services/dataTransformation.js`)

`DataTransformationService` keeps a mutable statistics object
`{ totalTransformations, enumTransformations, nullTransformations }`;
the embedding returns the increments applied to it. -/

/-- Statistics increments produced by one call, mirroring the mutable
`transformationStats` object of the service (which has exactly the three
counters below and no others). -/
structure TransformationStats where
  totalTransformations : Nat
  enumTransformations : Nat
  nullTransformations : Nat
deriving DecidableEq, Repr

/-- The embedded dictionary of `isCommonAbbreviation`
(`dataTransformation.js`). -/
def abbreviations : List (String × List String) :=
  [("activity", ["act", "activities"]),
   ("individual", ["ind", "person", "user"]),
   ("group", ["grp", "team"]),
   ("event", ["evt", "event_details"]),
   ("news", ["news_details"]),
   ("notification", ["notif", "notify"])]

/-- Model of `DataTransformationService.isCommonAbbreviation`: two values are
related when one is the dictionary key and the other one of its listed
aliases. -/
def isCommonAbbreviation (value1 value2 : String) : Bool :=
  abbreviations.any fun entry =>
    (value1 = entry.1 && entry.2.contains value2) ||
    (value2 = entry.1 && entry.2.contains value1)

/-- Model of `DataTransformationService.findPartialMatch`: scan the catalog
labels in declared order; for each label first test the substring rule, then
the common-abbreviation rule, returning the first label for which either
fires. -/
def findPartialMatch (currentValue : String) (validValues : List String) : Option String :=
  let current := jsToLower currentValue
  validValues.find? fun valid =>
    let validLower := jsToLower valid
    strContains validLower current || strContains current validLower ||
      isCommonAbbreviation current validLower

/-- Model of `DataTransformationService.transformEnumValue`. Returns the
replacement value (`none` models JavaScript `null`) together with the
increment applied to the `nullTransformations` counter (the source increments
that same counter both on the default-to-first-label path and on the
empty-catalog null path). -/
def transformEnumValue (currentValue : String) (validValues : List String) :
    Option String × Nat :=
  match validValues.find? (fun valid => jsToLower valid = jsToLower currentValue) with
  | some closeMatch => (some closeMatch, 0)
  | none =>
    match findPartialMatch currentValue validValues with
    | some m => (some m, 0)
    | none =>
      match validValues with
      | defaultValue :: _ => (some defaultValue, 1)
      | [] => (none, 1)

/-- A transformer row: column name to value; `some s` is a string value,
`none` is JavaScript `null` (an absent key behaves the same as `null` in
`transformTableData`, which only tests `!== null && !== undefined`). -/
abbrev TRow : Type := List (String × Option String)

/-- Row lookup: the current string value of a column, `none` when the column
is absent or `null`. -/
def rowGet (row : TRow) (col : String) : Option String :=
  match row.find? (fun p => p.1 = col) with
  | some (_, v) => v
  | none => none

/-- Row update, modelling `transformedRow[columnName] = transformedValue`. -/
def rowSet (row : TRow) (col : String) (v : Option String) : TRow :=
  row.map fun p => if p.1 = col then (col, v) else p

/-- An enum column description as returned by
`schemaDiscoveryService.getEnumColumns` (fields `column_name`, `udt_name`). -/
structure EnumCol where
  column_name : String
  udt_name : String
deriving DecidableEq, Repr

/-- Enum catalog: enum type name to its ordered labels
(`schemaDiscoveryService.discoverEnumValues` output). -/
abbrev EnumMap : Type := List (String × List String)

/-- Lookup in the enum catalog, modelling `enumMap[enumName] || []`. -/
def enumLookup (enumMap : EnumMap) (name : String) : List String :=
  match enumMap.find? (fun p => p.1 = name) with
  | some (_, vs) => vs
  | none => []

/-- The per-row body of `transformTableData`: fold the enum columns over the
row, applying `transformEnumValue` when the current value is present and not
already a valid label. Returns the transformed row plus the increments of
`enumTransformations` and `nullTransformations`. -/
def transformRow (enumColumns : List EnumCol) (enumMap : EnumMap) (row : TRow) :
    TRow × Nat × Nat :=
  enumColumns.foldl
    (fun acc col =>
      let (r, e, n) := acc
      let validValues := enumLookup enumMap col.udt_name
      match rowGet r col.column_name with
      | none => (r, e, n)
      | some currentValue =>
        if validValues.contains currentValue then (r, e, n)
        else
          let (tv, nd) := transformEnumValue currentValue validValues
          if tv ≠ some currentValue then
            (rowSet r col.column_name tv, e + 1, n + nd)
          else (r, e, n + nd))
    (row, 0, 0)

/-- Model of `DataTransformationService.transformTableData` (the enum-column
list, obtained in the source through `schemaDiscoveryService.getEnumColumns`,
is passed as an argument). Returns the transformed rows and the statistics
increments. -/
def transformTableData (data : List TRow) (enumColumns : List EnumCol)
    (enumMap : EnumMap) : List TRow × TransformationStats :=
  if data = [] then (data, ⟨0, 0, 0⟩)
  else if enumColumns = [] then (data, ⟨0, 0, 0⟩)
  else
    let step := data.foldl
      (fun acc row =>
        let (rows, e, n) := acc
        let (r, de, dn) := transformRow enumColumns enumMap row
        (rows ++ [r], e + de, n + dn))
      ([], 0, 0)
    (step.1, ⟨data.length, step.2.1, step.2.2⟩)

/-- The enum cascade exactly as the claim states it: exact match, then
case-insensitive match over the whole catalog, then the substring rule over
the whole catalog, then the synonym rule over the whole catalog, then
default to the first label. Written from the specification text, to be
compared with `transformEnumValue`. -/
def claimEnumCascade (value : String) (catalog : List String) : Option String :=
  if catalog.contains value then some value
  else match catalog.find? (fun l => jsToLower l = jsToLower value) with
  | some l => some l
  | none =>
    match catalog.find? (fun l =>
        strContains (jsToLower l) (jsToLower value) ||
        strContains (jsToLower value) (jsToLower l)) with
    | some l => some l
    | none =>
      match catalog.find? (fun l => isCommonAbbreviation (jsToLower value) (jsToLower l)) with
      | some l => some l
      | none => catalog.head?

/-- The cascade as the code actually orders it (amended claim): after the
case-insensitive pass, a single pass over the catalog in declared order tests
each label for the substring rule or the synonym rule together, the first
label matching either wins; then default to the first label; the result is
null only for an empty catalog. Stated from the amended claim wording, using
a filter-then-head formulation to be compared against `transformEnumValue`. -/
def amendedEnumCascade (value : String) (catalog : List String) : Option String :=
  match (catalog.filter (fun l => jsToLower l = jsToLower value)).head? with
  | some l => some l
  | none =>
    match (catalog.filter (fun l =>
        strContains (jsToLower l) (jsToLower value) ||
        strContains (jsToLower value) (jsToLower l) ||
        isCommonAbbreviation (jsToLower value) (jsToLower l))).head? with
    | some l => some l
    | none => catalog.head?

/-- Helper: the head of a filtered list is the first element satisfying the
predicate. -/
lemma head_filter_eq_find (p : α → Bool) (l : List α) :
    (l.filter p).head? = l.find? p := by
  induction l with
  | nil => rfl
  | cons a t ih =>
    by_cases hp : p a = true
    · simp [List.filter, List.find?, hp]
    · simp only [Bool.not_eq_true] at hp
      simp [List.filter, List.find?, hp, ih]

/-- C4 counterexample: at value `"user"` with catalog
`["INDIVIDUAL", "USERS"]`, the claimed cascade order (substring rule over the
whole catalog before the synonym rule) yields `"USERS"` (the second label
contains the value), but `transformEnumValue` yields `"INDIVIDUAL"` (the
synonym rule fires for the first label before the substring rule is ever
tried on the second), so the claimed rule order is not the code's order. -/
theorem transformEnumValue_cascade_counterexample :
    (transformEnumValue "user" ["INDIVIDUAL", "USERS"]).1 = some "INDIVIDUAL" ∧
    claimEnumCascade "user" ["INDIVIDUAL", "USERS"] = some "USERS" ∧
    some "INDIVIDUAL" ≠ (some "USERS" : Option String) := by
  refine ⟨by decide, by decide, by decide⟩

/-- C4 amended: the cascade short-circuits in the order case-insensitive
match, then a single pass over the catalog in declared order in which each
label is tested for the substring rule or the synonym rule together (first
matching label wins), then default-to-first-label; earlier stages are never
overridden by later ones. Formally, `transformEnumValue` coincides with the
stage-by-stage cascade `amendedEnumCascade` on every value and catalog. -/
theorem transformEnumValue_eq_amendedEnumCascade (value : String) (catalog : List String) :
    (transformEnumValue value catalog).1 = amendedEnumCascade value catalog := by
  simp only [transformEnumValue, amendedEnumCascade, findPartialMatch,
    head_filter_eq_find]
  cases h1 : catalog.find? (fun l => jsToLower l = jsToLower value) with
  | some l => rfl
  | none =>
    cases h2 : catalog.find? (fun l =>
        strContains (jsToLower l) (jsToLower value) ||
        strContains (jsToLower value) (jsToLower l) ||
        isCommonAbbreviation (jsToLower value) (jsToLower l)) with
    | some l => rfl
    | none => cases catalog <;> rfl

/-- C5 counterexample: on the row `{type: "INVALID_TYPE"}` with catalog
`type_enum = ["USER", "ADMIN"]` the output row is `{type: "USER"}`, but the
counter that increments is `nullTransformations` — the very counter that also
counts empty-catalog null substitutions — because `transformationStats` has
only the fields `totalTransformations`, `enumTransformations` and
`nullTransformations`; there is no separate `defaultSubstitutions` counter,
so the null-substitution counter does change, contrary to the claim. -/
theorem transformTableData_default_counter_counterexample :
    transformTableData [[("type", some "INVALID_TYPE")]] [⟨"type", "type_enum"⟩]
      [("type_enum", ["USER", "ADMIN"])] =
    ([[("type", some "USER")]],
      { totalTransformations := 1, enumTransformations := 1, nullTransformations := 1 }) := by
  decide

/-- C5 amended: the default substitution outputs the first catalog label
(`{type: "USER"}`) and increments the shared `nullTransformations` counter by
exactly 1 — the same counter that an empty-catalog null substitution
increments — there being no dedicated `defaultSubstitutions` counter in the
service. -/
theorem transformTableData_default_substitution_amended :
    (transformTableData [[("type", some "INVALID_TYPE")]] [⟨"type", "type_enum"⟩]
      [("type_enum", ["USER", "ADMIN"])]).1 = [[("type", some "USER")]] ∧
    (transformTableData [[("type", some "INVALID_TYPE")]] [⟨"type", "type_enum"⟩]
      [("type_enum", ["USER", "ADMIN"])]).2.nullTransformations = 1 ∧
    (transformEnumValue "INVALID_TYPE" []).2 = 1 := by
  refine ⟨by decide, by decide, by decide⟩

/-! ### Loader (`src/services/data.js`)

`DataService.insertTableData` / `DataService.insertBatch` are embedded with
the database connection abstracted: the outcome of the multi-row insert
statement for batch number `bn` is the oracle value `batchEnv bn`, and the
outcome of the per-row fallback insert for row index `r` of that batch is
`rowEnv bn r` (`Except.ok rowCount` for a resolved query, `Except.error msg`
for a rejected one). -/

/-- A JavaScript value as the loader sees it. Nested arrays/objects (which
the source serializes with `JSON.stringify`) are not modelled: no claim
depends on them. -/
inductive JsValue where
  | null : JsValue
  | str : String → JsValue
  | num : Int → JsValue
  | boolean : Bool → JsValue
deriving DecidableEq, Repr

/-- A loader row: a JavaScript object as a key/value list; an absent key is
JavaScript `undefined`. -/
abbrev LRow : Type := List (String × JsValue)

/-- ASCII whitespace test, for the `trim` model. -/
def isWhitespaceChar (c : Char) : Bool :=
  c = ' ' || c = '\t' || c = '\n' || c = '\r'

/-- Model of JavaScript `s.trim()`. -/
def jsTrim (s : String) : String :=
  String.mk (((s.toList.dropWhile isWhitespaceChar).reverse.dropWhile isWhitespaceChar).reverse)

/-- Model of JavaScript `s.startsWith(pre)`. -/
def jsStartsWith (s pre : String) : Bool :=
  pre.toList.isPrefixOf s.toList

/-- Model of JavaScript `s.endsWith(suf)`. -/
def jsEndsWith (s suf : String) : Bool :=
  suf.toList.reverse.isPrefixOf s.toList.reverse

/-- The keys of a row object. -/
def rowKeys (row : LRow) : List String :=
  row.map (·.1)

/-- Row member access `row[col]`: `none` is JavaScript `undefined`. -/
def rowIndex (row : LRow) (col : String) : Option JsValue :=
  (row.find? (fun p => p.1 = col)).map (·.2)

/-- The per-value normalization of `insertBatch` (shared verbatim by the
per-row fallback): `undefined` becomes null, the empty string becomes null,
and a string whose trim looks like a JSON array or object is passed through
trimmed. -/
def prepareValue (v : Option JsValue) : JsValue :=
  let value := v.getD .null
  let value := if value = .str "" then .null else value
  match value with
  | .str s =>
    let t := jsTrim s
    if (jsStartsWith t "[" && jsEndsWith t "]") ||
        (jsStartsWith t "\x7b" && jsEndsWith t "\x7d") then .str t
    else .str s
  | other => other

/-- The result of `insertBatch`: the row tally plus the per-row errors the
fallback collected (empty when the multi-row statement succeeded). -/
structure InsertBatchResult where
  insertedRows : Nat
  rowErrors : List (Nat × String)
deriving DecidableEq, Repr

/-- The per-row fallback loop of `insertBatch`: starting at row index `r`,
each row is retried individually; a resolved insert adds its `rowCount` to
`insertedRows`, a rejected one is recorded in `rowErrors` under its index. -/
def perRowFallback (rowEnv : Nat → Except String Nat) : Nat → List LRow → InsertBatchResult
  | _, [] => ⟨0, []⟩
  | r, _ :: rest =>
    let tail := perRowFallback rowEnv (r + 1) rest
    match rowEnv r with
    | .ok n => ⟨n + tail.insertedRows, tail.rowErrors⟩
    | .error e => ⟨tail.insertedRows, (r, e) :: tail.rowErrors⟩

/-- Decidable equality for `Except`, used to evaluate the loader on concrete
inputs. -/
instance {ε α : Type} [DecidableEq ε] [DecidableEq α] : DecidableEq (Except ε α) := fun x y =>
  match x, y with
  | .ok a, .ok b =>
    if h : a = b then isTrue (by rw [h]) else isFalse (by intro hh; cases hh; exact h rfl)
  | .error a, .error b =>
    if h : a = b then isTrue (by rw [h]) else isFalse (by intro hh; cases hh; exact h rfl)
  | .ok _, .error _ => isFalse (by intro hh; cases hh)
  | .error _, .ok _ => isFalse (by intro hh; cases hh)

/-- Model of `DataService.insertBatch` (the `onConflict` policy only shapes
the SQL text, which is not modelled). An empty batch short-circuits; the
effective column set is `columnNames` filtered by membership in the union of
row keys; when it is empty the schema-mismatch error is thrown; otherwise
the prepared parameter list is sanity-checked and the multi-row statement is
attempted, falling back to per-row inserts when it rejects. -/
def insertBatch (tableName : String) (batch : List LRow) (columnNames : List String)
    (_onConflict : String)
    (batchEnv : Except String Nat) (rowEnv : Nat → Except String Nat) :
    Except String InsertBatchResult :=
  if batch.length = 0 then .ok ⟨0, []⟩
  else
    let dataKeys := batch.flatMap rowKeys
    let validColumns := columnNames.filter (fun col => dataKeys.contains col)
    if validColumns.length = 0 then
      .error ("No valid columns found for table " ++ tableName)
    else
      let values := batch.flatMap (fun row => validColumns.map (fun col => prepareValue (rowIndex row col)))
      if values.length ≠ batch.length * validColumns.length then
        .error ("Batch construction error: expected " ++
          toString (batch.length * validColumns.length) ++ " values but got " ++
          toString values.length)
      else
        match batchEnv with
        | .ok rowCount => .ok ⟨rowCount, []⟩
        | .error _ => .ok (perRowFallback rowEnv 0 batch)

/-- A batch-level error entry of `insertTableData`. -/
structure BatchError where
  batchNumber : Nat
  batchSize : Nat
  error : String
deriving DecidableEq, Repr

/-- The result object of `insertTableData`. -/
structure InsertTableResult where
  tableName : String
  insertedRows : Nat
  totalRows : Nat
  success : Bool
  batches : Nat
  errors : List BatchError
deriving DecidableEq, Repr

/-- Fuel-indexed batch slicing; with `fuel ≥ l.length` and a positive slice
size the fuel never runs out (each step drops at least one element), so the
fuel-exhausted branch is unreachable. -/
def chunkListAux (bs : Nat) : Nat → List α → List (List α)
  | _, [] => []
  | 0, a :: rest => [a :: rest]
  | fuel + 1, a :: rest =>
    if bs = 0 then [a :: rest]
    else (a :: rest).take bs :: chunkListAux bs fuel ((a :: rest).drop bs)

/-- The batch slicing `for (let i = 0; i < data.length; i += batchSize)` of
`insertTableData` (the source never runs it with `batchSize = 0`, which
would not terminate; that case is mapped to a single slice). -/
def chunkList (bs : Nat) (l : List α) : List (List α) :=
  chunkListAux bs l.length l

/-- The batch loop of `insertTableData`: each slice is attempted through
`insertBatch`; a thrown batch error is recorded in `errors` and additionally
rethrown when its message contains `does not exist` or `permission`.
Returns `(totalInserted, batchCount, errors)`. -/
def insertBatches (tableName : String) (columnNames : List String) (onConflict : String)
    (batchEnv : Nat → Except String Nat) (rowEnv : Nat → Nat → Except String Nat) :
    Nat → List (List LRow) → Except String (Nat × Nat × List BatchError)
  | _, [] => .ok (0, 0, [])
  | bn, chunk :: rest =>
    match insertBatch tableName chunk columnNames onConflict (batchEnv bn) (rowEnv bn) with
    | .ok r =>
      match insertBatches tableName columnNames onConflict batchEnv rowEnv (bn + 1) rest with
      | .ok (ins, cnt, errs) => .ok (r.insertedRows + ins, cnt + 1, errs)
      | .error e => .error e
    | .error e =>
      if strContains e "does not exist" || strContains e "permission" then .error e
      else
        match insertBatches tableName columnNames onConflict batchEnv rowEnv (bn + 1) rest with
        | .ok (ins, cnt, errs) => .ok (ins, cnt + 1, ⟨bn, chunk.length, e⟩ :: errs)
        | .error e2 => .error e2

/-- Model of `DataService.insertTableData` (the `getTableColumns` result is
passed as `columnNames`; `clearFirst` defaults to false in every caller and
is omitted). A thrown error is wrapped in the outer catch message; batch
errors that do not rethrow surface in the returned `errors` list, and
`success` is their absence. -/
def insertTableData (tableName : String) (data : List LRow) (columnNames : List String)
    (onConflict : String) (batchSize : Nat) (batchEnv : Nat → Except String Nat)
    (rowEnv : Nat → Nat → Except String Nat) : Except String InsertTableResult :=
  if data.length = 0 then .ok ⟨tableName, 0, 0, true, 0, []⟩
  else
    match insertBatches tableName columnNames onConflict batchEnv rowEnv 1 (chunkList batchSize data) with
    | .ok (ins, cnt, errs) => .ok ⟨tableName, ins, data.length, errs.length = 0, cnt, errs⟩
    | .error e => .error ("Failed to insert data into table " ++ tableName ++ ": " ++ e)

/-- Helper: the prepared parameter list has one entry per row and effective
column, so the sanity check of `insertBatch` never fires. -/
lemma values_length (batch : List LRow) (cols : List String)
    (f : LRow → String → JsValue) :
    (batch.flatMap fun row => cols.map (f row)).length = batch.length * cols.length := by
  induction batch with
  | nil => simp
  | cons a t ih => simp [ih, Nat.succ_mul, Nat.add_comm]

/-- Helper: every row of the fallback loop is accounted as inserted or as a
row error, provided each resolved per-row insert reports row count 1. -/
lemma perRowFallback_accounting (rowEnv : Nat → Except String Nat)
    (h1 : ∀ i n, rowEnv i = .ok n → n = 1) :
    ∀ (rows : List LRow) (start : Nat),
      (perRowFallback rowEnv start rows).insertedRows +
        (perRowFallback rowEnv start rows).rowErrors.length = rows.length := by
  intro rows
  induction rows with
  | nil => intro start; simp [perRowFallback]
  | cons a t ih =>
    intro start
    simp only [perRowFallback]
    cases he : rowEnv start with
    | ok n =>
      have hn := h1 start n he
      subst hn
      have := ih (start + 1)
      simp only [List.length_cons]
      omega
    | error e =>
      have := ih (start + 1)
      simp only [List.length_cons, List.length_cons]
      simp only [List.length_cons] at this ⊢
      omega

/-- A concrete one-row batch for the loader scenarios. -/
def c2Batch : List LRow := [[("id", JsValue.num 1)]]

/-- A per-row oracle in which the single-row insert resolves with
`rowCount = 0` — exactly what a duplicate row produces under
`ON CONFLICT DO NOTHING`. -/
def c2SkipEnv : Nat → Except String Nat := fun _ => .ok 0

/-- A per-row oracle in which every single-row insert resolves with
`rowCount = 1`. -/
def c2OkEnv : Nat → Except String Nat := fun _ => .ok 1

/-- C2 counterexample: a one-row batch whose multi-row insert rejects and
whose per-row fallback completes with the row resolved at `rowCount = 0`
(an `ON CONFLICT DO NOTHING` skip) yields `insertedRows = 0` and no row
error, so `insertedRows + rowErrors.length = 0 ≠ 1 = batch.length`: the row
is accounted neither as inserted nor as a per-row error. -/
theorem insertBatch_fallback_counterexample :
    insertBatch "t" c2Batch ["id"] "skip" (.error "duplicate key") c2SkipEnv =
      .ok ⟨0, []⟩ ∧
    c2Batch.length = 1 ∧ (0 : Nat) + ([] : List (Nat × String)).length ≠ 1 :=
  ⟨by decide, by decide, by decide⟩

/-- C2 amended: whenever the multi-row insert rejects and the per-row
fallback completes, `insertedRows + rowErrors.length = batch.length` holds
provided every resolved single-row insert reports `rowCount = 1` (always the
case under conflict policy `error`; under `skip` a conflicting row resolves
with `rowCount = 0` and the sum falls short). -/
theorem insertBatch_fallback_accounting
    (tableName : String) (batch : List LRow) (columnNames : List String)
    (onConflict msg : String) (rowEnv : Nat → Except String Nat) (r : InsertBatchResult)
    (hok : insertBatch tableName batch columnNames onConflict (.error msg) rowEnv = .ok r)
    (h1 : ∀ i n, rowEnv i = .ok n → n = 1) :
    r.insertedRows + r.rowErrors.length = batch.length := by
  unfold insertBatch at hok
  by_cases hb : batch.length = 0
  · rw [if_pos hb] at hok
    cases hok
    simpa using hb.symm
  · rw [if_neg hb] at hok
    simp only at hok
    by_cases hv : (columnNames.filter fun col => ((batch.flatMap rowKeys).contains col)).length = 0
    · rw [if_pos hv] at hok
      cases hok
    · rw [if_neg hv] at hok
      have hlen := values_length batch
        (columnNames.filter fun col => ((batch.flatMap rowKeys).contains col))
        (fun row col => prepareValue (rowIndex row col))
      rw [if_neg (not_ne_iff.mpr hlen)] at hok
      cases hok
      exact perRowFallback_accounting rowEnv h1 batch 0

/-- C2 witness: the amended accounting at a concrete failing batch whose
single row is then inserted by the fallback. -/
theorem insertBatch_fallback_accounting_witness :
    insertBatch "t" c2Batch ["id"] "error" (.error "boom") c2OkEnv = .ok ⟨1, []⟩ ∧
    (1 : Nat) + ([] : List (Nat × String)).length = c2Batch.length :=
  ⟨by decide,
    insertBatch_fallback_accounting "t" c2Batch ["id"] "error" "boom" c2OkEnv ⟨1, []⟩
      (by decide) (fun i n h => by simp [c2OkEnv] at h; omega)⟩

/-- Helper: every slice produced by the batch slicing is nonempty. -/
lemma chunkListAux_mem_ne_nil {α} (bs : Nat) :
    ∀ (fuel : Nat) (l : List α) (c : List α), c ∈ chunkListAux bs fuel l → c ≠ [] := by
  intro fuel
  induction fuel with
  | zero =>
    intro l c hc
    cases l with
    | nil => simp [chunkListAux] at hc
    | cons a rest =>
      simp [chunkListAux] at hc
      simp [hc]
  | succ n ih =>
    intro l c hc
    cases l with
    | nil => simp [chunkListAux] at hc
    | cons a rest =>
      by_cases hbs : bs = 0
      · simp [chunkListAux, hbs] at hc
        simp [hc]
      · simp only [chunkListAux, if_neg hbs, List.mem_cons] at hc
        rcases hc with hc | hc
        · subst hc
          cases hb : bs with
          | zero => exact absurd hb hbs
          | succ m => simp
        · exact ih _ c hc

/-- Helper: every element of a slice is an element of the sliced list. -/
lemma chunkListAux_mem_subset {α} (bs : Nat) :
    ∀ (fuel : Nat) (l : List α) (c : List α), c ∈ chunkListAux bs fuel l →
      ∀ x ∈ c, x ∈ l := by
  intro fuel
  induction fuel with
  | zero =>
    intro l c hc x hx
    cases l with
    | nil => simp [chunkListAux] at hc
    | cons a rest =>
      simp [chunkListAux] at hc
      rw [hc] at hx
      exact hx
  | succ n ih =>
    intro l c hc x hx
    cases l with
    | nil => simp [chunkListAux] at hc
    | cons a rest =>
      by_cases hbs : bs = 0
      · simp [chunkListAux, hbs] at hc
        rw [hc] at hx
        exact hx
      · simp only [chunkListAux, if_neg hbs, List.mem_cons] at hc
        rcases hc with hc | hc
        · subst hc
          exact List.take_subset _ _ hx
        · exact List.drop_subset _ _ (ih _ c hc x hx)

/-- The batch-error list that an all-mismatch run of the batch loop
accumulates: one schema-mismatch entry per slice, numbered from `bn`.
Used only to state the amended claim explicitly. -/
def schemaMismatchErrors (tableName : String) : List (List LRow) → Nat → List BatchError
  | [], _ => []
  | chunk :: rest, bn =>
    ⟨bn, chunk.length, "No valid columns found for table " ++ tableName⟩ ::
      schemaMismatchErrors tableName rest (bn + 1)

/-- Helper: when every slice has an empty effective column set (and the
schema-mismatch message matches neither rethrow pattern), the batch loop
completes with zero inserted rows and one recorded batch error per slice. -/
lemma insertBatches_all_mismatch (tableName : String) (columnNames : List String)
    (onConflict : String) (batchEnv : Nat → Except String Nat)
    (rowEnv : Nat → Nat → Except String Nat)
    (hm1 : strContains ("No valid columns found for table " ++ tableName) "does not exist" = false)
    (hm2 : strContains ("No valid columns found for table " ++ tableName) "permission" = false) :
    ∀ (chunks : List (List LRow)) (bn : Nat),
      (∀ chunk ∈ chunks, chunk ≠ [] ∧
        (columnNames.filter fun col => ((chunk.flatMap rowKeys).contains col)).length = 0) →
      insertBatches tableName columnNames onConflict batchEnv rowEnv bn chunks =
        .ok (0, chunks.length, schemaMismatchErrors tableName chunks bn) := by
  intro chunks
  induction chunks with
  | nil => intro bn _; rfl
  | cons chunk rest ih =>
    intro bn hall
    have hchunk := hall chunk (by simp)
    have hrest : ∀ c ∈ rest, c ≠ [] ∧
        (columnNames.filter fun col => ((c.flatMap rowKeys).contains col)).length = 0 :=
      fun c hc => hall c (by simp [hc])
    have hlen : chunk.length ≠ 0 := by
      intro h
      exact hchunk.1 (List.length_eq_zero.mp h)
    simp only [insertBatches, insertBatch, if_neg hlen, if_pos hchunk.2, hm1, hm2,
      Bool.or_self, Bool.false_eq_true, if_neg, ih (bn + 1) hrest]
    simp [schemaMismatchErrors, List.length_cons]

/-- C6 concrete data: one row whose single key misses the target column. -/
def c6Data : List LRow := [[("a", JsValue.num 1)]]

/-- A batch oracle that resolves every statement (never consulted on the
schema-mismatch path). -/
def okBatchEnv : Nat → Except String Nat := fun _ => .ok 0

/-- A per-row oracle that resolves every statement (never consulted on the
schema-mismatch path). -/
def okRowEnv : Nat → Nat → Except String Nat := fun _ _ => .ok 0

/-- C6 counterexample: with rows whose keys are disjoint from the target
columns, `insertTableData` does not raise the schema-mismatch error to its
caller — it returns normally with `success = false` and the schema-mismatch
recorded inside the returned `errors` list (the error thrown by
`insertBatch` is caught by the batch loop, which rethrows only messages
containing `does not exist` or `permission`). -/
theorem insertTableData_schema_mismatch_counterexample :
    insertTableData "users" c6Data ["b"] "error" 1000 okBatchEnv okRowEnv =
      .ok ⟨"users", 0, 1, false, 1, [⟨1, 1, "No valid columns found for table users"⟩]⟩ := by
  decide

/-- C6 amended: for every non-empty row list whose key union is disjoint
from the target columns (and a table name that does not accidentally match
the `does not exist` / `permission` rethrow patterns), `insertBatch` throws
the schema-mismatch error but `insertTableData` catches it per batch and
reports it in the returned `errors` list: the call returns `.ok` with
`success = false`, zero inserted rows and one non-empty schema-mismatch
entry per batch; nothing is thrown to the caller. -/
theorem insertTableData_schema_mismatch_reported
    (tableName : String) (data : List LRow) (columnNames : List String)
    (onConflict : String) (batchSize : Nat)
    (batchEnv : Nat → Except String Nat) (rowEnv : Nat → Nat → Except String Nat)
    (hne : data ≠ [])
    (hcols : ∀ c ∈ columnNames, (data.flatMap rowKeys).contains c = false)
    (hm1 : strContains ("No valid columns found for table " ++ tableName) "does not exist" = false)
    (hm2 : strContains ("No valid columns found for table " ++ tableName) "permission" = false) :
    insertTableData tableName data columnNames onConflict batchSize batchEnv rowEnv =
      .ok ⟨tableName, 0, data.length, false, (chunkList batchSize data).length,
        schemaMismatchErrors tableName (chunkList batchSize data) 1⟩ ∧
    schemaMismatchErrors tableName (chunkList batchSize data) 1 ≠ [] := by
  have hall : ∀ chunk ∈ chunkList batchSize data, chunk ≠ [] ∧
      (columnNames.filter fun col => ((chunk.flatMap rowKeys).contains col)).length = 0 := by
    intro chunk hc
    refine ⟨chunkListAux_mem_ne_nil batchSize _ data chunk hc, ?_⟩
    rw [List.length_eq_zero, List.filter_eq_nil_iff]
    intro c hcmem hcontains
    have hc2 : c ∈ chunk.flatMap rowKeys := by
      have := List.elem_iff.mp hcontains
      exact this
    have hc3 : c ∈ data.flatMap rowKeys := by
      rcases List.mem_flatMap.mp hc2 with ⟨row, hrow, hcrow⟩
      exact List.mem_flatMap.mpr ⟨row, chunkListAux_mem_subset batchSize _ data chunk hc row hrow, hcrow⟩
    have hfalse := hcols c hcmem
    have htrue : (data.flatMap rowKeys).contains c = true := by simpa using hc3
    rw [htrue] at hfalse
    exact Bool.true_eq_false.mp hfalse
  have hbatches := insertBatches_all_mismatch tableName columnNames onConflict batchEnv rowEnv
    hm1 hm2 (chunkList batchSize data) 1 hall
  have hchunks_ne : chunkList batchSize data ≠ [] := by
    cases data with
    | nil => exact absurd rfl hne
    | cons a rest =>
      simp only [chunkList, List.length_cons, chunkListAux]
      by_cases hbs : batchSize = 0
      · simp [hbs]
      · simp [if_neg hbs]
  have herr_ne : schemaMismatchErrors tableName (chunkList batchSize data) 1 ≠ [] := by
    cases hc : chunkList batchSize data with
    | nil => exact absurd hc hchunks_ne
    | cons a rest => simp [schemaMismatchErrors]
  refine ⟨?_, herr_ne⟩
  have hdlen : data.length ≠ 0 := by
    intro h
    exact hne (List.length_eq_zero.mp h)
  simp only [insertTableData, if_neg hdlen, hbatches]
  have hslen : (schemaMismatchErrors tableName (chunkList batchSize data) 1).length ≠ 0 := by
    intro h
    exact herr_ne (List.length_eq_zero.mp h)
  simp [hslen]

/-- C6 witness: the amended behavior at the concrete one-row, one-column
mismatch instance. -/
theorem insertTableData_schema_mismatch_reported_witness :
    insertTableData "users" c6Data ["b"] "error" 1000 okBatchEnv okRowEnv =
      .ok ⟨"users", 0, c6Data.length, false, (chunkList 1000 c6Data).length,
        schemaMismatchErrors "users" (chunkList 1000 c6Data) 1⟩ ∧
    schemaMismatchErrors "users" (chunkList 1000 c6Data) 1 ≠ [] :=
  insertTableData_schema_mismatch_reported "users" c6Data ["b"] "error" 1000
    okBatchEnv okRowEnv (by decide) (by decide) (by decide) (by decide)

/-! ### Executor (`src/services/syncOrchestrator.js`)

`SyncOrchestratorService` is embedded per phase: `syncSingleTable` and the
per-table body of `performDataSync` become pure functions over oracle inputs
(the Metabase extraction result, the transformer, the loader outcome), and
the failure handling after the sync loop becomes `finishDataSync`. -/

/-- The orchestrator configuration `syncConfig`. The constructor initializes
`batchSize`, `onConflict`, `enableRollback` and `enableTransformation`; the
CLI tests additionally merge a `continueOnError` key through `configure`,
which the embedding carries as a field (it is never read by any
orchestrator method). -/
structure SyncConfig where
  batchSize : Nat
  onConflict : String
  enableRollback : Bool
  enableTransformation : Bool
  continueOnError : Bool
deriving DecidableEq, Repr

/-- The constructor defaults of `syncConfig` (with `continueOnError` absent,
i.e. false). -/
def defaultSyncConfig : SyncConfig :=
  ⟨1000, "error", true, true, false⟩

/-- A failed-table record `{name, error, details}` of `syncStats`. -/
structure FailedTable where
  name : String
  error : String
  details : String
deriving DecidableEq, Repr

/-- The mutable `syncStats` of the orchestrator (timestamps omitted). -/
structure SyncStats where
  totalTables : Nat
  successfulTables : Nat
  failedTables : List FailedTable
  totalRows : Nat
  syncedRows : Nat
deriving DecidableEq, Repr

/-- The result of `metabaseService.extractAllTableData` as `syncSingleTable`
consumes it (`success`, `data`, and the `error` message of a failed
extraction). -/
structure ExtractResult where
  success : Bool
  data : List TRow
  error : Option String
deriving Repr

/-- The loader result as `syncSingleTable` consumes it: `success`,
`insertedRows`, and the `error` fields of the returned error entries. -/
structure InsertOutcome where
  success : Bool
  insertedRows : Nat
  errors : List String
deriving DecidableEq, Repr

/-- Model of `SyncOrchestratorService.syncSingleTable`: the extraction result
is an input, the transformation step is the function `transformF`, and the
loader call is the oracle `insertOracle` applied to the configured conflict
policy, batch size and the transformed rows. Returns the synced row count or
the thrown table-level error message. -/
def syncSingleTable (config : SyncConfig) (extractResult : ExtractResult)
    (transformF : List TRow → List TRow)
    (insertOracle : String → Nat → List TRow → InsertOutcome) : Except String Nat :=
  if extractResult.success = false ∨ extractResult.data.length = 0 then
    .error ("Data extraction failed: " ++ extractResult.error.getD "No data returned")
  else
    let transformedData := transformF extractResult.data
    let insertResult := insertOracle config.onConflict config.batchSize transformedData
    if insertResult.success = false then
      .error ("Data insertion failed: " ++ insertResult.errors.head?.getD "Unknown insertion error")
    else if insertResult.insertedRows ≠ extractResult.data.length then
      .error ("Row count mismatch: expected " ++ toString extractResult.data.length ++
        ", inserted " ++ toString insertResult.insertedRows)
    else
      .ok insertResult.insertedRows

/-- The per-table body of `SyncOrchestratorService.performDataSync`:
`tableCounts[name] || 0` is the `counts` function; a zero recorded count
marks the table successful without extraction; otherwise `syncSingleTable`
runs and a thrown error is recorded in `failedTables` (an `Error` object has
no `details`, so `error.details || 'Unknown error'` records the default). -/
def processTable (config : SyncConfig) (counts : String → Nat)
    (extract : String → ExtractResult) (transformF : List TRow → List TRow)
    (insertOracle : String → Nat → List TRow → InsertOutcome)
    (stats : SyncStats) (tableName : String) : SyncStats :=
  let rowCount := counts tableName
  if rowCount = 0 then
    { stats with successfulTables := stats.successfulTables + 1 }
  else
    match syncSingleTable config (extract tableName) transformF insertOracle with
    | .ok n =>
      { stats with successfulTables := stats.successfulTables + 1,
                   syncedRows := stats.syncedRows + n }
    | .error e =>
      { stats with failedTables := stats.failedTables ++ [⟨tableName, e, "Unknown error"⟩] }

/-- Model of `SyncOrchestratorService.handleSyncFailures`: it optionally
performs the rollback (`enableRollback`, returned as the first component)
and then unconditionally throws the sync-failed error — no code path
consults `continueOnError`. -/
def handleSyncFailures (config : SyncConfig) (_stats : SyncStats) :
    Bool × Except String Unit :=
  (config.enableRollback, .error "Database synchronization FAILED - no changes applied")

/-- The tail of `performDataSync`: when any table failed, failure handling
runs (and throws); otherwise the sync phase completes normally. -/
def finishDataSync (config : SyncConfig) (stats : SyncStats) : Except String Unit :=
  if stats.failedTables.length > 0 then (handleSyncFailures config stats).2
  else .ok ()

/-- The configuration the CLI tests install for `--ignore-errors`:
`configure({enableRollback: false, continueOnError: true})`. -/
def ignoreErrorsConfig : SyncConfig :=
  { defaultSyncConfig with enableRollback := false, continueOnError := true }

/-- Statistics of a run in which one table failed. -/
def c1Stats : SyncStats :=
  ⟨2, 1, [⟨"users", "Data insertion failed: boom", "Unknown error"⟩], 5, 3⟩

/-- C1: with `continue_on_error` set (the `--ignore-errors` configuration the
README documents and the CLI tests install) and a non-empty failed-table
list, the sync phase still throws the fatal sync-failed error — the run
cannot complete normally with exit code 0, because `handleSyncFailures`
never consults `continueOnError`. This evaluates the code at the failing
input of the code-bug report. -/
theorem finishDataSync_raises_despite_continueOnError :
    ignoreErrorsConfig.continueOnError = true ∧
    c1Stats.failedTables ≠ [] ∧
    finishDataSync ignoreErrorsConfig c1Stats =
      .error "Database synchronization FAILED - no changes applied" :=
  ⟨rfl, by decide, rfl⟩

/-- The conflict-skip configuration of the C7 scenario. -/
def skipConfig : SyncConfig := { defaultSyncConfig with onConflict := "skip" }

/-- An extraction result with two planned rows. -/
def c7Extract : ExtractResult := ⟨true, [[("id", some "1")], [("id", some "2")]], none⟩

/-- A loader oracle reporting success with a single inserted row. -/
def c7InsertOracle : String → Nat → List TRow → InsertOutcome := fun _ _ _ => ⟨true, 1, []⟩

/-- C7 counterexample: with conflict policy `skip`, two planned rows and one
inserted row, `syncSingleTable` still throws the row-count-mismatch
table-level failure — the mismatch is not excused under `skip`, contrary to
the claim. -/
theorem syncSingleTable_mismatch_counterexample :
    skipConfig.onConflict = "skip" ∧
    syncSingleTable skipConfig c7Extract id c7InsertOracle =
      .error "Row count mismatch: expected 2, inserted 1" :=
  ⟨rfl, by decide⟩

/-- C7 amended: after a successful extraction and a successful load,
`insertedRows ≠ planned rows` is thrown as a row-count-mismatch table-level
failure regardless of the configured conflict policy (the verification step
never consults `onConflict`). -/
theorem syncSingleTable_mismatch_any_policy
    (config : SyncConfig) (extractResult : ExtractResult)
    (transformF : List TRow → List TRow)
    (insertOracle : String → Nat → List TRow → InsertOutcome)
    (hsucc : extractResult.success = true)
    (hne : extractResult.data.length ≠ 0)
    (hinsert : (insertOracle config.onConflict config.batchSize
      (transformF extractResult.data)).success = true)
    (hmismatch : (insertOracle config.onConflict config.batchSize
      (transformF extractResult.data)).insertedRows ≠ extractResult.data.length) :
    syncSingleTable config extractResult transformF insertOracle =
      .error ("Row count mismatch: expected " ++ toString extractResult.data.length ++
        ", inserted " ++ toString (insertOracle config.onConflict config.batchSize
          (transformF extractResult.data)).insertedRows) := by
  unfold syncSingleTable
  rw [if_neg (by simp [hsucc, hne])]
  simp only
  rw [if_neg (by simp [hinsert]), if_pos hmismatch]

/-- C7 witness: the amended mismatch behavior at the concrete skip-policy
instance. -/
theorem syncSingleTable_mismatch_any_policy_witness :
    syncSingleTable skipConfig c7Extract id c7InsertOracle =
      .error ("Row count mismatch: expected " ++ toString c7Extract.data.length ++
        ", inserted " ++ toString (c7InsertOracle skipConfig.onConflict skipConfig.batchSize
          (id c7Extract.data)).insertedRows) :=
  syncSingleTable_mismatch_any_policy skipConfig c7Extract id c7InsertOracle
    (by decide) (by decide) (by decide) (by decide)

/-- C10: in the sync loop, a table whose recorded upstream count is nonzero
but whose extraction completes successfully with zero rows is recorded as a
table-level failure carrying the data-extraction error message, with
`successfulTables` unchanged; and a table whose recorded count is exactly 0
is marked successful for every extraction oracle, without consulting it. -/
theorem processTable_zero_rows_extracted :
    (∀ (config : SyncConfig) (counts : String → Nat) (extract : String → ExtractResult)
      (transformF : List TRow → List TRow)
      (insertOracle : String → Nat → List TRow → InsertOutcome)
      (stats : SyncStats) (tableName : String),
      counts tableName ≠ 0 →
      (extract tableName).success = true →
      (extract tableName).data = [] →
      processTable config counts extract transformF insertOracle stats tableName =
        { stats with failedTables := stats.failedTables ++
            [⟨tableName, "Data extraction failed: " ++
              ((extract tableName).error.getD "No data returned"), "Unknown error"⟩] }) ∧
    (∀ (config : SyncConfig) (counts : String → Nat) (extract : String → ExtractResult)
      (transformF : List TRow → List TRow)
      (insertOracle : String → Nat → List TRow → InsertOutcome)
      (stats : SyncStats) (tableName : String),
      counts tableName = 0 →
      processTable config counts extract transformF insertOracle stats tableName =
        { stats with successfulTables := stats.successfulTables + 1 }) := by
  constructor
  · intro config counts extract transformF insertOracle stats tableName hcount hsucc hdata
    unfold processTable
    rw [if_neg hcount]
    unfold syncSingleTable
    rw [if_pos (by simp [hdata])]
  · intro config counts extract transformF insertOracle stats tableName hcount
    unfold processTable
    rw [if_pos hcount]

/-- C10 witness: both parts at concrete inputs — a table with recorded count
3 whose extraction succeeds with no rows is recorded failed, and a table
with recorded count 0 is marked successful. -/
theorem processTable_zero_rows_extracted_witness :
    processTable defaultSyncConfig (fun _ => 3) (fun _ => ⟨true, [], none⟩) id
      c7InsertOracle ⟨1, 0, [], 3, 0⟩ "users" =
      { (⟨1, 0, [], 3, 0⟩ : SyncStats) with failedTables :=
          [] ++ [⟨"users", "Data extraction failed: " ++
            ((none : Option String).getD "No data returned"), "Unknown error"⟩] } ∧
    processTable defaultSyncConfig (fun _ => 0) (fun _ => ⟨true, [], none⟩) id
      c7InsertOracle ⟨1, 0, [], 0, 0⟩ "users" =
      { (⟨1, 0, [], 0, 0⟩ : SyncStats) with successfulTables := 0 + 1 } :=
  ⟨processTable_zero_rows_extracted.1 defaultSyncConfig (fun _ => 3)
      (fun _ => ⟨true, [], none⟩) id c7InsertOracle ⟨1, 0, [], 3, 0⟩ "users"
      (by decide) rfl rfl,
    processTable_zero_rows_extracted.2 defaultSyncConfig (fun _ => 0)
      (fun _ => ⟨true, [], none⟩) id c7InsertOracle ⟨1, 0, [], 0, 0⟩ "users" rfl⟩

/-! ### Planner (`DataService.sortTablesByDependencies` in
`src/services/data.js`)

The depth-first traversal keeps three pieces of state (`sorted`, `visited`,
`visiting`); the recursive `visit` closure is embedded with explicit state
passing and a fuel argument. Recursion depth is bounded by the number of
distinct names not yet on the stack, so `tableNames.length + 1` fuel is
never exhausted (proved through `visitFuel_spec`). -/

/-- The state of the depth-first traversal of `sortTablesByDependencies`. -/
structure VisitState where
  sorted : List String
  visited : List String
  visiting : List String
deriving DecidableEq, Repr

/-- The recursive `visit` closure of `sortTablesByDependencies`, fuel
indexed: a name on the recursion stack or already visited returns
immediately; otherwise the name is pushed on the stack, its dependencies
that belong to the table set are visited in order, and the name is popped,
marked visited and appended to the output (post-order). -/
def visitFuel (tableNames : List String) (deps : String → List String) :
    Nat → String → VisitState → VisitState
  | 0, _, st => st
  | fuel + 1, name, st =>
    if name ∈ st.visiting then st
    else if name ∈ st.visited then st
    else
      let st1 : VisitState := { st with visiting := name :: st.visiting }
      let st2 := ((deps name).filter (fun dep => dep ∈ tableNames)).foldl
        (fun acc dep => visitFuel tableNames deps fuel dep acc) st1
      { sorted := st2.sorted ++ [name],
        visited := name :: st2.visited,
        visiting := st2.visiting.erase name }

/-- Model of `DataService.sortTablesByDependencies`: visit each table in
discovery order (skipping already-visited ones) and return the accumulated
post-order, which is the insertion order. -/
def sortTablesByDependencies (tableNames : List String) (deps : String → List String) :
    List String :=
  (tableNames.foldl
    (fun st name =>
      if name ∈ st.visited then st
      else visitFuel tableNames deps (tableNames.length + 1) name st)
    ⟨[], [], []⟩).sorted

/-- The clearing / rollback order used by `clearExistingData` and
`performRollback` (`syncOrchestrator.js`): the reverse of the insertion
order. -/
def clearingOrder (tableNames : List String) (deps : String → List String) : List String :=
  (sortTablesByDependencies tableNames deps).reverse

/-- The C3 fixture tables in upstream discovery order. -/
def c3Tables : List String := ["users", "orders", "products", "order_items"]

/-- The C3 fixture foreign-key edges: `orders→users`,
`order_items→orders`, `order_items→products`. -/
def c3Deps : String → List String := fun t =>
  if t = "orders" then ["users"]
  else if t = "order_items" then ["orders", "products"]
  else []

/-- C3 counterexample: on the fixture the code's insertion order is
`users, orders, products, order_items` (the discovery order, which already
places dependencies first), not the claimed
`users, products, orders, order_items`. -/
theorem sortTablesByDependencies_fixture_counterexample :
    sortTablesByDependencies c3Tables c3Deps =
      ["users", "orders", "products", "order_items"] ∧
    ["users", "orders", "products", "order_items"] ≠
      ["users", "products", "orders", "order_items"] :=
  ⟨by decide, by decide⟩

/-- C3 amended: on the fixture the insertion order is
`users, orders, products, order_items` and the deletion order is its exact
reverse. -/
theorem sortTablesByDependencies_fixture_order :
    sortTablesByDependencies c3Tables c3Deps =
      ["users", "orders", "products", "order_items"] ∧
    clearingOrder c3Tables c3Deps =
      ["order_items", "products", "orders", "users"] ∧
    clearingOrder c3Tables c3Deps = (sortTablesByDependencies c3Tables c3Deps).reverse :=
  ⟨by decide, by decide, rfl⟩

/-- Helper: filtering by a weaker predicate keeps at least as many
elements. -/
lemma length_filter_le_of_imp {α : Type} (p q : α → Bool) :
    ∀ (l : List α), (∀ x ∈ l, q x = true → p x = true) →
      (l.filter q).length ≤ (l.filter p).length := by
  intro l
  induction l with
  | nil => intro _; simp
  | cons a t ih =>
    intro h
    have ht := ih fun x hx => h x (List.mem_cons_of_mem a hx)
    by_cases hq : q a = true
    · have hp := h a (List.mem_cons_self a t) hq
      simp only [List.filter, hq, hp]
      simpa using ht
    · simp only [Bool.not_eq_true] at hq
      by_cases hp : p a = true
      · simp only [List.filter, hq, hp]
        simp only [List.length_cons]
        omega
      · simp only [Bool.not_eq_true] at hp
        simpa [List.filter, hq, hp] using ht

/-- Helper: filtering by a strictly weaker predicate (witnessed at a member
`a`) keeps strictly more elements. -/
lemma length_filter_lt_of_imp {α : Type} (p q : α → Bool) (a : α) :
    ∀ (l : List α), (∀ x ∈ l, q x = true → p x = true) → a ∈ l → p a = true → q a = false →
      (l.filter q).length < (l.filter p).length := by
  intro l
  induction l with
  | nil => intro _ ha; cases ha
  | cons b t ih =>
    intro h hmem hpa hqa
    have himp : ∀ x ∈ t, q x = true → p x = true :=
      fun x hx => h x (List.mem_cons_of_mem b hx)
    rcases List.mem_cons.mp hmem with rfl | hat
    · simp only [List.filter, hqa, hpa]
      have := length_filter_le_of_imp p q t himp
      simp only [List.length_cons]
      omega
    · by_cases hq : q b = true
      · have hp := h b (List.mem_cons_self b t) hq
        simp only [List.filter, hq, hp, List.length_cons]
        exact Nat.succ_lt_succ (ih himp hat hpa hqa)
      · simp only [Bool.not_eq_true] at hq
        by_cases hp : p b = true
        · simp only [List.filter, hq, hp, List.length_cons]
          have := ih himp hat hpa hqa
          omega
        · simp only [Bool.not_eq_true] at hp
          simp only [List.filter, hq, hp]
          exact ih himp hat hpa hqa

/-- The number of distinct table names not yet marked visited or on the
recursion stack — the measure that bounds the remaining recursion depth. -/
def unseenCount (tableNames : List String) (st : VisitState) : Nat :=
  (tableNames.dedup.filter (fun n => n ∉ st.visited ∧ n ∉ st.visiting)).length

/-- The traversal invariant: visited and visiting are duplicate-free and
disjoint, and the emitted order is exactly the reverse of the visited
list. -/
structure DfsInv (st : VisitState) : Prop where
  visited_nodup : st.visited.Nodup
  visiting_nodup : st.visiting.Nodup
  disj : ∀ x, x ∈ st.visited → x ∉ st.visiting
  sorted_eq : st.sorted = st.visited.reverse

/-- How one traversal step relates the state before and after: the stack is
restored, visited only grows, and it grows only by table names. -/
structure DfsExtends (tableNames : List String) (st st' : VisitState) : Prop where
  visiting_eq : st'.visiting = st.visiting
  visited_mono : ∀ x, x ∈ st.visited → x ∈ st'.visited
  visited_new : ∀ x, x ∈ st'.visited → x ∈ st.visited ∨ x ∈ tableNames

/-- Reflexivity of `DfsExtends`. -/
lemma dfsExtends_refl (tableNames : List String) (st : VisitState) :
    DfsExtends tableNames st st :=
  ⟨rfl, fun _ h => h, fun _ h => Or.inl h⟩

/-- Transitivity of `DfsExtends`. -/
lemma dfsExtends_trans {tableNames : List String} {st1 st2 st3 : VisitState}
    (h12 : DfsExtends tableNames st1 st2) (h23 : DfsExtends tableNames st2 st3) :
    DfsExtends tableNames st1 st3 := by
  refine ⟨h23.visiting_eq.trans h12.visiting_eq,
    fun x h => h23.visited_mono x (h12.visited_mono x h), fun x h => ?_⟩
  rcases h23.visited_new x h with h2 | h2
  · exact h12.visited_new x h2
  · exact Or.inr h2

/-- The unseen measure never grows across a traversal step. -/
lemma unseenCount_le_of_extends {tableNames : List String} {st st' : VisitState}
    (he : DfsExtends tableNames st st') :
    unseenCount tableNames st' ≤ unseenCount tableNames st := by
  apply length_filter_le_of_imp
  intro x _ hq
  simp only [decide_eq_true_eq] at hq ⊢
  refine ⟨fun h => hq.1 (he.visited_mono x h), fun h => hq.2 ?_⟩
  rw [he.visiting_eq]
  exact h

/-- Pushing a fresh table name on the stack strictly shrinks the unseen
measure. -/
lemma unseenCount_lt_push (tableNames : List String) (st : VisitState) (name : String)
    (hmem : name ∈ tableNames) (h1 : name ∉ st.visited) (h2 : name ∉ st.visiting) :
    unseenCount tableNames { st with visiting := name :: st.visiting } <
      unseenCount tableNames st := by
  apply length_filter_lt_of_imp _ _ name
  · intro x _ hq
    simp only [decide_eq_true_eq] at hq ⊢
    refine ⟨hq.1, fun h => hq.2 (List.mem_cons_of_mem _ h)⟩
  · exact List.mem_dedup.mpr hmem
  · simp [h1, h2]
  · simp

/-- The unseen measure is bounded by the table count, so the fuel
`tableNames.length + 1` always suffices. -/
lemma unseenCount_le_len (tableNames : List String) (st : VisitState) :
    unseenCount tableNames st ≤ tableNames.length :=
  le_trans (List.length_filter_le _ _) (List.dedup_sublist tableNames).length_le

/-- The main traversal lemma: with fuel exceeding the unseen measure, one
`visit` call preserves the invariant, extends the state (restoring the
stack), and leaves the visited name either in the visited set or already on
the stack. -/
lemma visitFuel_spec (tableNames : List String) (deps : String → List String) :
    ∀ (fuel : Nat) (name : String) (st : VisitState),
      DfsInv st → name ∈ tableNames → unseenCount tableNames st < fuel →
      DfsInv (visitFuel tableNames deps fuel name st) ∧
      DfsExtends tableNames st (visitFuel tableNames deps fuel name st) ∧
      (name ∈ (visitFuel tableNames deps fuel name st).visited ∨ name ∈ st.visiting) := by
  intro fuel
  induction fuel with
  | zero => intro name st _ _ hfuel; exact absurd hfuel (Nat.not_lt_zero _)
  | succ fuel ih =>
    intro name st hinv hmem hfuel
    by_cases hvis : name ∈ st.visiting
    · simp only [visitFuel, if_pos hvis]
      exact ⟨hinv, dfsExtends_refl _ _, Or.inr hvis⟩
    by_cases hvtd : name ∈ st.visited
    · simp only [visitFuel, if_neg hvis, if_pos hvtd]
      exact ⟨hinv, dfsExtends_refl _ _, Or.inl hvtd⟩
    simp only [visitFuel, if_neg hvis, if_neg hvtd]
    set st1 : VisitState := { st with visiting := name :: st.visiting } with hst1
    set ds := (deps name).filter (fun dep => dep ∈ tableNames) with hds
    set st2 := ds.foldl (fun acc dep => visitFuel tableNames deps fuel dep acc) st1 with hst2
    have hinv1 : DfsInv st1 := by
      refine ⟨hinv.visited_nodup, List.nodup_cons.mpr ⟨hvis, hinv.visiting_nodup⟩, ?_,
        hinv.sorted_eq⟩
      intro x hx
      simp only [hst1, List.mem_cons]
      rintro (rfl | hx2)
      · exact hvtd hx
      · exact hinv.disj x hx hx2
    have hall_ds : ∀ d ∈ ds, d ∈ tableNames := by
      intro d hd
      rw [hds] at hd
      exact of_decide_eq_true (List.mem_filter.mp hd).2
    have hcnt1 : unseenCount tableNames st1 < fuel := by
      have hlt := unseenCount_lt_push tableNames st name hmem hvtd hvis
      rw [← hst1] at hlt
      omega
    have hfold : ∀ (ds2 : List String), (∀ d ∈ ds2, d ∈ tableNames) →
        ∀ acc, DfsInv acc → DfsExtends tableNames st1 acc →
          DfsInv (ds2.foldl (fun acc dep => visitFuel tableNames deps fuel dep acc) acc) ∧
          DfsExtends tableNames st1
            (ds2.foldl (fun acc dep => visitFuel tableNames deps fuel dep acc) acc) := by
      intro ds2
      induction ds2 with
      | nil => exact fun _ acc ha he => ⟨ha, he⟩
      | cons d rest ihds =>
        intro h2 acc hacc hext
        simp only [List.foldl_cons]
        have hcnt_acc : unseenCount tableNames acc < fuel := by
          have hle := unseenCount_le_of_extends hext
          omega
        obtain ⟨hinvd, hextd, _⟩ := ih d acc hacc (h2 d (List.mem_cons_self d rest)) hcnt_acc
        exact ihds (fun x hx => h2 x (List.mem_cons_of_mem d hx)) _ hinvd
          (dfsExtends_trans hext hextd)
    obtain ⟨hinv2, hext2⟩ := hfold ds hall_ds st1 hinv1 (dfsExtends_refl _ _)
    rw [← hst2] at hinv2 hext2
    have hvisiting2 : st2.visiting = name :: st.visiting := by
      rw [hext2.visiting_eq, hst1]
    have hname_vis2 : name ∈ st2.visiting := by
      rw [hvisiting2]
      exact List.mem_cons_self _ _
    have hname_nvtd2 : name ∉ st2.visited := fun h => hinv2.disj name h hname_vis2
    have herase : st2.visiting.erase name = st.visiting := by
      rw [hvisiting2]
      exact List.erase_cons_head name st.visiting
    have hvtd1 : st1.visited = st.visited := by rw [hst1]
    refine ⟨⟨List.nodup_cons.mpr ⟨hname_nvtd2, hinv2.visited_nodup⟩, ?_, ?_, ?_⟩,
      ⟨herase, ?_, ?_⟩, Or.inl (List.mem_cons_self _ _)⟩
    · rw [herase]
      exact hinv.visiting_nodup
    · intro x hx
      rw [herase]
      rcases List.mem_cons.mp hx with rfl | h2
      · exact hvis
      · intro hxv
        apply hinv2.disj x h2
        rw [hvisiting2]
        exact List.mem_cons_of_mem _ hxv
    · rw [hinv2.sorted_eq, List.reverse_cons]
    · intro x hx
      refine List.mem_cons_of_mem _ (hext2.visited_mono x ?_)
      rw [hvtd1]
      exact hx
    · intro x hx
      rcases List.mem_cons.mp hx with rfl | h2
      · exact Or.inr hmem
      · rcases hext2.visited_new x h2 with h3 | h3
        · rw [hvtd1] at h3
          exact Or.inl h3
        · exact Or.inr h3

/-- The top-level loop of `sortTablesByDependencies`: after folding over the
discovery list, the invariant holds, the stack is empty, and every processed
name has been visited. -/
lemma sortFold_spec (tableNames : List String) (deps : String → List String) :
    ∀ (ns : List String), (∀ n ∈ ns, n ∈ tableNames) →
    ∀ acc, DfsInv acc → acc.visiting = [] →
      DfsInv (ns.foldl (fun st name =>
          if name ∈ st.visited then st
          else visitFuel tableNames deps (tableNames.length + 1) name st) acc) ∧
      DfsExtends tableNames acc (ns.foldl (fun st name =>
          if name ∈ st.visited then st
          else visitFuel tableNames deps (tableNames.length + 1) name st) acc) ∧
      (ns.foldl (fun st name =>
          if name ∈ st.visited then st
          else visitFuel tableNames deps (tableNames.length + 1) name st) acc).visiting = [] ∧
      (∀ n ∈ ns, n ∈ (ns.foldl (fun st name =>
          if name ∈ st.visited then st
          else visitFuel tableNames deps (tableNames.length + 1) name st) acc).visited) := by
  intro ns
  induction ns with
  | nil =>
    intro _ acc hacc hvis
    exact ⟨hacc, dfsExtends_refl _ _, hvis, fun n hn => absurd hn (List.not_mem_nil n)⟩
  | cons a rest ihns =>
    intro hall acc hacc hvis
    simp only [List.foldl_cons]
    by_cases hmem : a ∈ acc.visited
    · rw [if_pos hmem]
      obtain ⟨h1, h2, h3, h4⟩ := ihns (fun n hn => hall n (List.mem_cons_of_mem a hn)) acc hacc hvis
      refine ⟨h1, h2, h3, ?_⟩
      intro n hn
      rcases List.mem_cons.mp hn with rfl | hn2
      · exact h2.visited_mono n hmem
      · exact h4 n hn2
    · rw [if_neg hmem]
      have hfuel : unseenCount tableNames acc < tableNames.length + 1 :=
        Nat.lt_succ_of_le (unseenCount_le_len tableNames acc)
      obtain ⟨hinva, hexta, hina⟩ := visitFuel_spec tableNames deps (tableNames.length + 1) a acc
        hacc (hall a (List.mem_cons_self a rest)) hfuel
      have hina2 : a ∈ (visitFuel tableNames deps (tableNames.length + 1) a acc).visited := by
        rcases hina with h | h
        · exact h
        · rw [hvis] at h
          exact absurd h (List.not_mem_nil a)
      have hvisa : (visitFuel tableNames deps (tableNames.length + 1) a acc).visiting = [] := by
        rw [hexta.visiting_eq, hvis]
      obtain ⟨h1, h2, h3, h4⟩ := ihns (fun n hn => hall n (List.mem_cons_of_mem a hn)) _ hinva hvisa
      refine ⟨h1, dfsExtends_trans hexta h2, h3, ?_⟩
      intro n hn
      rcases List.mem_cons.mp hn with rfl | hn2
      · exact h2.visited_mono n hina2
      · exact h4 n hn2

/-- C9: for every table-name list without duplicates and every dependency
map — cyclic, self-referential or mentioning outside names included —
`sortTablesByDependencies` returns a permutation of its input: every input
name appears exactly once and nothing else appears. -/
theorem sortTablesByDependencies_permutation (tableNames : List String)
    (deps : String → List String) (hnd : tableNames.Nodup) :
    (sortTablesByDependencies tableNames deps).Perm tableNames := by
  unfold sortTablesByDependencies
  obtain ⟨hinv, hext, _, hall⟩ := sortFold_spec tableNames deps tableNames (fun _ h => h)
    ⟨[], [], []⟩ ⟨List.nodup_nil, List.nodup_nil, fun x h => absurd h (List.not_mem_nil x), rfl⟩
    rfl
  rw [hinv.sorted_eq]
  refine (List.reverse_perm _).trans ?_
  refine (List.perm_ext_iff_of_nodup hinv.visited_nodup hnd).mpr ?_
  intro a
  constructor
  · intro ha
    rcases hext.visited_new a ha with h | h
    · exact absurd h (List.not_mem_nil a)
    · exact h
  · exact fun ha => hall a ha

/-- A cyclic dependency map on two tables, for the C9 witness. -/
def c9Deps : String → List String := fun t =>
  if t = "a" then ["b"] else if t = "b" then ["a"] else []

/-- C9 witness: the permutation property at a concrete cyclic instance. -/
theorem sortTablesByDependencies_permutation_witness :
    (["a", "b"] : List String).Nodup ∧
    (sortTablesByDependencies ["a", "b"] c9Deps).Perm ["a", "b"] :=
  ⟨by decide, sortTablesByDependencies_permutation ["a", "b"] c9Deps (by decide)⟩

/-! ### Environment validation (`src/utils/env.js`)

`process.env` is embedded as a function from variable names to optional
string values. The JavaScript numeric builtins `isNaN` (which coerces
through `Number(string)`) and `parseInt` are modelled for decimal notation
(optional sign, fraction, exponent); the hexadecimal / `Infinity` forms are
out of scope for every string this development evaluates. -/

/-- Digit-string value. -/
def digitsToNat (ds : List Char) : Nat :=
  ds.foldl (fun acc c => acc * 10 + (c.toNat - 48)) 0

/-- An exact decimal value `mant · 10 ^ exp`, the result of a successful
`Number(string)` coercion. -/
structure JsNum where
  mant : Int
  exp : Int
deriving DecidableEq, Repr

/-- Exact comparison `q ≤ b` against an integer bound, by cross
multiplication. -/
def JsNum.leInt (q : JsNum) (b : Int) : Bool :=
  if 0 ≤ q.exp then q.mant * 10 ^ q.exp.toNat ≤ b
  else q.mant ≤ b * 10 ^ (-q.exp).toNat

/-- Exact comparison `b ≤ q` against an integer bound, by cross
multiplication. -/
def JsNum.geInt (q : JsNum) (b : Int) : Bool :=
  if 0 ≤ q.exp then b ≤ q.mant * 10 ^ q.exp.toNat
  else b * 10 ^ (-q.exp).toNat ≤ q.mant

/-- Builds the exact value of a parsed decimal literal. -/
def mkDecimal (neg : Bool) (intDigits fracDigits : List Char) (expVal : Nat)
    (expNeg : Bool) : JsNum :=
  let m : Int := digitsToNat (intDigits ++ fracDigits)
  ⟨if neg then -m else m,
    (if expNeg then -(expVal : Int) else (expVal : Int)) - fracDigits.length⟩

/-- Model of JavaScript `Number(string)` on decimal notation: trimmed empty
string is 0; otherwise an optional sign, digits with optional fraction and
optional exponent; anything else is NaN (`none`). -/
def jsNumber (s : String) : Option JsNum :=
  let cs := (jsTrim s).toList
  if cs = [] then some ⟨0, 0⟩
  else
    let signAndRest : Bool × List Char :=
      match cs with
      | '-' :: rest => (true, rest)
      | '+' :: rest => (false, rest)
      | _ => (false, cs)
    let neg := signAndRest.1
    let cs1 := signAndRest.2
    let intDigits := cs1.takeWhile Char.isDigit
    let rest1 := cs1.dropWhile Char.isDigit
    let fracAndRest : List Char × List Char :=
      match rest1 with
      | '.' :: r => (r.takeWhile Char.isDigit, r.dropWhile Char.isDigit)
      | _ => ([], rest1)
    let fracDigits := fracAndRest.1
    let rest2 := fracAndRest.2
    if intDigits = [] ∧ fracDigits = [] then none
    else
      match rest2 with
      | [] => some (mkDecimal neg intDigits fracDigits 0 false)
      | e :: r3 =>
        if e = 'e' ∨ e = 'E' then
          let expSignAndRest : Bool × List Char :=
            match r3 with
            | '-' :: rr => (true, rr)
            | '+' :: rr => (false, rr)
            | _ => (false, r3)
          let expDigits := expSignAndRest.2.takeWhile Char.isDigit
          let rest5 := expSignAndRest.2.dropWhile Char.isDigit
          if expDigits = [] then none
          else if rest5 ≠ [] then none
          else some (mkDecimal neg intDigits fracDigits (digitsToNat expDigits)
            expSignAndRest.1)
        else none

/-- Model of JavaScript `isNaN(string)`: the `Number` coercion fails. -/
def jsIsNaN (s : String) : Bool :=
  (jsNumber s).isNone

/-- Model of JavaScript `parseInt(string)` (radix 10): skip whitespace, take
an optional sign and the longest digit prefix; no digits means NaN
(`none`). -/
def jsParseInt (s : String) : Option Int :=
  let cs := (jsTrim s).toList
  let signAndRest : Bool × List Char :=
    match cs with
    | '-' :: rest => (true, rest)
    | '+' :: rest => (false, rest)
    | _ => (false, cs)
  let digits := signAndRest.2.takeWhile Char.isDigit
  if digits = [] then none
  else some (if signAndRest.1 then -(digitsToNat digits : Int) else (digitsToNat digits : Int))

/-- The environment: variable name to optional value. -/
abbrev Env : Type := String → Option String

/-- `REQUIRED_ENV_VARS` of `env.js`. -/
def REQUIRED_ENV_VARS : List String :=
  ["DB_LOCAL_HOST", "DB_LOCAL_PORT", "DB_LOCAL_NAME", "DB_LOCAL_USERNAME",
   "DB_LOCAL_PASSWORD", "METABASE_BASE_URL", "METABASE_DATABASE_ID",
   "DB_REMOTE_USERNAME", "DB_REMOTE_PASSWORD"]

/-- `OPTIONAL_ENV_VARS` of `env.js` with their defaults. -/
def OPTIONAL_ENV_VARS : List (String × String) :=
  [("DB_LOCAL_SSL", "false"), ("DB_CONNECTION_TIMEOUT", "30000"),
   ("DB_BATCH_SIZE", "1000"), ("SYNC_LOG_LEVEL", "info")]

/-- Result of `validateRequiredEnvVars`. -/
structure RequiredValidation where
  success : Bool
  missing : List String
  invalid : List String
deriving DecidableEq, Repr

/-- Model of `validateRequiredEnvVars`: a required variable is missing when
unset and invalid when its trimmed value is empty. -/
def validateRequiredEnvVars (env : Env) : RequiredValidation :=
  let missing := REQUIRED_ENV_VARS.filter (fun v => (env v).isNone)
  let invalid := REQUIRED_ENV_VARS.filter (fun v =>
    match env v with
    | some s => jsTrim s = ""
    | none => false)
  ⟨missing.isEmpty && invalid.isEmpty, missing, invalid⟩

/-- JavaScript falsiness of `process.env[key]`: unset or the empty string. -/
def jsFalsyOpt (o : Option String) : Bool :=
  match o with
  | none => true
  | some s => s = ""

/-- Model of `setDefaultEnvVars`: every optional variable that is unset or
empty receives its default. -/
def setDefaultEnvVars (env : Env) : Env := fun k =>
  match OPTIONAL_ENV_VARS.find? (fun kv => kv.1 = k) with
  | some kv => if jsFalsyOpt (env k) then some kv.2 else env k
  | none => env k

/-- Comparison against a parse that may be NaN: `NaN ≤ b` is false. -/
def intCmpLe (o : Option Int) (b : Int) : Bool :=
  match o with
  | some n => n ≤ b
  | none => false

/-- Comparison against a parse that may be NaN: `NaN < b` is false. -/
def intCmpLt (o : Option Int) (b : Int) : Bool :=
  match o with
  | some n => n < b
  | none => false

/-- Comparison against a parse that may be NaN: `NaN > b` is false. -/
def intCmpGt (o : Option Int) (b : Int) : Bool :=
  match o with
  | some n => b < n
  | none => false

/-- The `DB_LOCAL_PORT` format test of `validateEnvVarFormats`:
`localPort && (isNaN(localPort) || parseInt(localPort) <= 0 ||
parseInt(localPort) > 65535)`. -/
def portCond (o : Option String) : Bool :=
  match o with
  | none => false
  | some s => s ≠ "" && (jsIsNaN s || intCmpLe (jsParseInt s) 0 || intCmpGt (jsParseInt s) 65535)

/-- The `DB_CONNECTION_TIMEOUT` format test:
`timeout && (isNaN(timeout) || parseInt(timeout) < 1000)`. -/
def timeoutCond (o : Option String) : Bool :=
  match o with
  | none => false
  | some s => s ≠ "" && (jsIsNaN s || intCmpLt (jsParseInt s) 1000)

/-- The `DB_BATCH_SIZE` format test:
`batchSize && (isNaN(batchSize) || parseInt(batchSize) < 1)`. -/
def batchCond (o : Option String) : Bool :=
  match o with
  | none => false
  | some s => s ≠ "" && (jsIsNaN s || intCmpLt (jsParseInt s) 1)

/-- The allowed log levels. -/
def validLogLevels : List String := ["error", "warn", "info", "debug"]

/-- The `SYNC_LOG_LEVEL` format test:
`logLevel && !validLogLevels.includes(logLevel)`. -/
def logLevelCond (o : Option String) : Bool :=
  match o with
  | none => false
  | some s => s ≠ "" && !(validLogLevels.contains s)

/-- Result of `validateEnvVarFormats`. -/
structure FormatValidation where
  success : Bool
  errors : List String
deriving DecidableEq, Repr

/-- Model of `validateEnvVarFormats`: the four format tests append their
messages in source order; success is the absence of errors. -/
def validateEnvVarFormats (env : Env) : FormatValidation :=
  let errors : List String := []
  let errors := if portCond (env "DB_LOCAL_PORT") then
    errors ++ ["DB_LOCAL_PORT must be a valid port number (1-65535)"] else errors
  let errors := if timeoutCond (env "DB_CONNECTION_TIMEOUT") then
    errors ++ ["DB_CONNECTION_TIMEOUT must be a number >= 1000 (milliseconds)"] else errors
  let errors := if batchCond (env "DB_BATCH_SIZE") then
    errors ++ ["DB_BATCH_SIZE must be a positive number"] else errors
  let errors := if logLevelCond (env "SYNC_LOG_LEVEL") then
    errors ++ ["SYNC_LOG_LEVEL must be one of: error, warn, info, debug"] else errors
  ⟨errors.isEmpty, errors⟩

/-- Result of `validateEnvironment`. -/
structure EnvValidation where
  success : Bool
  allErrors : List String
deriving DecidableEq, Repr

/-- Model of `validateEnvironment`: defaults are applied first; the format
validation runs only when the required validation succeeded; overall success
is the conjunction. -/
def validateEnvironment (env : Env) : EnvValidation :=
  let env2 := setDefaultEnvVars env
  let required := validateRequiredEnvVars env2
  let format := if required.success then validateEnvVarFormats env2 else ⟨true, []⟩
  ⟨required.success && format.success,
    required.missing.map (fun v => "Missing required variable: " ++ v) ++
      required.invalid.map (fun v => "Invalid value for variable: " ++ v) ++
      format.errors⟩

/-- The claim's reading of "is a number in `lo`–`hi`": the `Number` coercion
succeeds and the value lies in the closed range. -/
def specIsNumberRange (o : Option String) (lo hi : Int) : Bool :=
  match o with
  | none => false
  | some s =>
    match jsNumber s with
    | some q => q.geInt lo && q.leInt hi
    | none => false

/-- The claim's reading of "is a number `≥ lo`". -/
def specIsNumberGE (o : Option String) (lo : Int) : Bool :=
  match o with
  | none => false
  | some s =>
    match jsNumber s with
    | some q => q.geInt lo
    | none => false

/-- The claim's reading of "`SYNC_LOG_LEVEL` is one of the allowed set". -/
def specLogLevelOk (o : Option String) : Bool :=
  match o with
  | none => false
  | some s => validLogLevels.contains s

/-- The claim's failure condition, stated from the claim's words over the
effective (post-default) environment. -/
def claimFormatFails (env : Env) : Bool :=
  !(specIsNumberRange (env "DB_LOCAL_PORT") 1 65535) ||
  !(specIsNumberGE (env "DB_CONNECTION_TIMEOUT") 1000) ||
  !(specIsNumberGE (env "DB_BATCH_SIZE") 1) ||
  !(specLogLevelOk (env "SYNC_LOG_LEVEL"))

/-- A complete environment whose only peculiarity is
`DB_CONNECTION_TIMEOUT = "1e3"`. -/
def c8Env : Env := fun k =>
  if k = "DB_LOCAL_HOST" then some "localhost"
  else if k = "DB_LOCAL_PORT" then some "5432"
  else if k = "DB_LOCAL_NAME" then some "db"
  else if k = "DB_LOCAL_USERNAME" then some "postgres"
  else if k = "DB_LOCAL_PASSWORD" then some "secret"
  else if k = "METABASE_BASE_URL" then some "http://mb"
  else if k = "METABASE_DATABASE_ID" then some "1"
  else if k = "DB_REMOTE_USERNAME" then some "user"
  else if k = "DB_REMOTE_PASSWORD" then some "pass"
  else if k = "DB_CONNECTION_TIMEOUT" then some "1e3"
  else none

/-- C8 counterexample: with every required variable present and non-empty
and `DB_CONNECTION_TIMEOUT = "1e3"`, validation fails even though none of
the claim's four conditions holds — `1e3` *is* a number `≥ 1000` under the
`Number` coercion the claim's "is a number" wording denotes, yet the code
tests `parseInt("1e3") = 1 < 1000` and records an error; so the claimed
"if and only if" is false. -/
theorem validateEnvironment_claim_counterexample :
    REQUIRED_ENV_VARS.all (fun v =>
      match c8Env v with
      | some s => decide (s ≠ "")
      | none => false) = true ∧
    (validateEnvironment c8Env).success = false ∧
    claimFormatFails (setDefaultEnvVars c8Env) = false :=
  ⟨by decide, by decide, by decide⟩

/-- C8 amended: after defaults are applied, (a) when the required validation
succeeds, validation fails if and only if one of the code's four format
tests fires — the `Number`-coercion-is-NaN / `parseInt`-bound tests for
`DB_LOCAL_PORT` (≤ 0 or > 65535), `DB_CONNECTION_TIMEOUT` (< 1000) and
`DB_BATCH_SIZE` (< 1), with comparisons against a failed integer parse being
false, or `SYNC_LOG_LEVEL` outside {error, warn, info, debug}; and (b) a
required variable that is unset or empty always makes validation fail. -/
theorem validateEnvironment_fails_iff :
    (∀ env : Env,
      (validateRequiredEnvVars (setDefaultEnvVars env)).success = true →
      ((validateEnvironment env).success = false ↔
        (portCond (setDefaultEnvVars env "DB_LOCAL_PORT") ||
         timeoutCond (setDefaultEnvVars env "DB_CONNECTION_TIMEOUT") ||
         batchCond (setDefaultEnvVars env "DB_BATCH_SIZE") ||
         logLevelCond (setDefaultEnvVars env "SYNC_LOG_LEVEL")) = true)) ∧
    (∀ (env : Env) (v : String), v ∈ REQUIRED_ENV_VARS →
      (env v = none ∨ env v = some "") →
      (validateEnvironment env).success = false) := by
  constructor
  · intro env hreq
    simp only [validateEnvironment, hreq, if_pos, Bool.true_and]
    cases hp : portCond (setDefaultEnvVars env "DB_LOCAL_PORT") <;>
      cases ht : timeoutCond (setDefaultEnvVars env "DB_CONNECTION_TIMEOUT") <;>
      cases hb : batchCond (setDefaultEnvVars env "DB_BATCH_SIZE") <;>
      cases hl : logLevelCond (setDefaultEnvVars env "SYNC_LOG_LEVEL") <;>
      simp [validateEnvVarFormats, hp, ht, hb, hl]
  · intro env v hv hval
    have hfind : OPTIONAL_ENV_VARS.find? (fun kv => kv.1 = v) = none := by
      fin_cases hv <;> decide
    have henv2 : setDefaultEnvVars env v = env v := by
      simp [setDefaultEnvVars, hfind]
    have hreqfail : (validateRequiredEnvVars (setDefaultEnvVars env)).success = false := by
      rcases hval with h | h
      · have hvmem : v ∈ REQUIRED_ENV_VARS.filter
            (fun v2 => ((setDefaultEnvVars env) v2).isNone) := by
          refine List.mem_filter.mpr ⟨hv, ?_⟩
          rw [henv2, h]
          rfl
        have hne : (REQUIRED_ENV_VARS.filter
            (fun v2 => ((setDefaultEnvVars env) v2).isNone)).isEmpty = false := by
          cases hm : REQUIRED_ENV_VARS.filter
              (fun v2 => ((setDefaultEnvVars env) v2).isNone) with
          | nil => rw [hm] at hvmem; cases hvmem
          | cons a t => rfl
        simp [validateRequiredEnvVars, hne]
      · have hvmem : v ∈ REQUIRED_ENV_VARS.filter (fun v2 =>
            match (setDefaultEnvVars env) v2 with
            | some s => jsTrim s = ""
            | none => false) := by
          refine List.mem_filter.mpr ⟨hv, ?_⟩
          rw [henv2, h]
          decide
        have hne : (REQUIRED_ENV_VARS.filter (fun v2 =>
            match (setDefaultEnvVars env) v2 with
            | some s => jsTrim s = ""
            | none => false)).isEmpty = false := by
          cases hm : REQUIRED_ENV_VARS.filter (fun v2 =>
              match (setDefaultEnvVars env) v2 with
              | some s => jsTrim s = ""
              | none => false) with
          | nil => rw [hm] at hvmem; cases hvmem
          | cons a t => rfl
        simp [validateRequiredEnvVars, hne]
    simp [validateEnvironment, hreqfail]

/-- An environment with no variable set. -/
def emptyEnv : Env := fun _ => none

/-- C8 witness: the amended equivalence at the concrete `"1e3"` environment
(the format disjunction fires through the timeout test) and the
always-fails direction at the empty environment. -/
theorem validateEnvironment_fails_iff_witness :
    ((validateEnvironment c8Env).success = false ↔
      (portCond (setDefaultEnvVars c8Env "DB_LOCAL_PORT") ||
       timeoutCond (setDefaultEnvVars c8Env "DB_CONNECTION_TIMEOUT") ||
       batchCond (setDefaultEnvVars c8Env "DB_BATCH_SIZE") ||
       logLevelCond (setDefaultEnvVars c8Env "SYNC_LOG_LEVEL")) = true) ∧
    (validateEnvironment emptyEnv).success = false :=
  ⟨validateEnvironment_fails_iff.1 c8Env (by decide),
    validateEnvironment_fails_iff.2 emptyEnv "DB_LOCAL_HOST" (by decide) (Or.inl rfl)⟩

end MetaExodus
